import Mathlib

/-!
# LandingPage.jsx — the element tree of the landing page component

Source: `DjangoProjects/Django_React_Docker/frontend/src/components/LandingPage.jsx`.

The component is an arrow function with an empty parameter list whose body is a
single `return` of a JSX literal.  The embedding has four layers:

* `JSXNode` — the JSX literal exactly as written in the source file, with the
  raw text between the tags (line breaks and indentation included);
* `cleanJSXElementLiteralChild`, `transform` — the evaluation of a JSX literal
  to the element tree handed to the host framework (text children are
  whitespace-normalised, one `createElement` per tag);
* `VNode` and its observers (`nodes`, `byTag`, `textContent`, `classList`, …) —
  the element tree and the queries the properties are phrased with;
* `LandingPageFn`, `execBody`, `ArrowFunction.call`, `runCalls` — the function
  as program text, run in a store of variables, for the properties that speak
  of earlier calls.
-/

namespace LandingPageJsx

/-! ## Data model -/

/-- A node of a JSX literal as written in the source: a tag with its attributes
(in source order) and children, or a run of raw text between two tags. -/
inductive JSXNode where
  | element (tag : String) (attrs : List (String × String)) (children : List JSXNode)
  | text (raw : String)

/-- A node of the element tree a JSX expression evaluates to: an element with
its tag, its props (children apart) and its children, or a text node. -/
inductive VNode where
  | element (tag : String) (props : List (String × String)) (children : List VNode)
  | text (value : String)

/-- A value: what a caller may pass as an argument (the props object, for
instance), what a variable may hold, and what a call may return (an element
tree, for a component). -/
inductive JSVal where
  | undefined
  | null
  | bool (b : Bool)
  | num (n : Int)
  | str (s : String)
  | obj (fields : List (String × JSVal))
  | tree (t : VNode)

/-- An abrupt completion of a call. -/
inductive JSError where
  | thrown (message : String)

/-! ## Evaluation of JSX text -/

/-- Split at the line terminators `\r\n`, `\n` and `\r`.  `afterCR` records that
the previous character was a `\r`, so that the `\n` of a `\r\n` pair does not
split a second time; `cur` is the current line, reversed. -/
def splitLinesAux : List Char → Bool → List Char → List (List Char)
  | [], _, cur => [cur.reverse]
  | c :: rest, afterCR, cur =>
    if c = '\n' then
      if afterCR then splitLinesAux rest false cur
      else cur.reverse :: splitLinesAux rest false []
    else if c = '\r' then cur.reverse :: splitLinesAux rest true []
    else splitLinesAux rest false (c :: cur)

/-- The lines of a raw JSX text. -/
def splitLines (raw : List Char) : List (List Char) :=
  splitLinesAux raw false []

/-- A line holds a character other than a space or a tab. -/
def hasNonBlank (line : List Char) : Bool :=
  line.any (fun c => c != ' ' && c != '\t')

/-- Index of the last line that holds a non-blank character (0 when none does). -/
def lastNonEmptyLine (lines : List (List Char)) : Nat :=
  lines.enum.foldl (fun acc p => if hasNonBlank p.2 then p.1 else acc) 0

/-- Drop the spaces at the start of a line. -/
def trimLeadingSpaces (line : List Char) : List Char :=
  line.dropWhile (fun c => c == ' ')

/-- Drop the spaces at the end of a line. -/
def trimTrailingSpaces (line : List Char) : List Char :=
  (line.reverse.dropWhile (fun c => c == ' ')).reverse

/-- The contribution of line `i` (of `n` lines) to the cleaned text: tabs become
spaces, whitespace touching a line break is trimmed, and a non-empty line other
than the last non-empty one is followed by a single space. -/
def cleanLine (n last i : Nat) (line : List Char) : List Char :=
  let noTabs := line.map (fun c => if c = '\t' then ' ' else c)
  let left := if i = 0 then noTabs else trimLeadingSpaces noTabs
  let both := if i = n - 1 then left else trimTrailingSpaces left
  if both.isEmpty then []
  else if i = last then both
  else both ++ [' ']

/-- The text child a raw JSX text evaluates to, `none` when nothing is left of
it (whitespace with a line break between two tags yields no child).  The texts
of the source hold no character entity and no `{…}` expression, so the raw
text is the characters between the tags. -/
def cleanJSXElementLiteralChild (raw : String) : Option String :=
  let lines := splitLines raw.data
  let last := lastNonEmptyLine lines
  let str := lines.enum.foldl
    (fun acc p => acc ++ cleanLine lines.length last p.1 p.2) []
  if str.isEmpty then none else some (String.mk str)

/-! ## Evaluation of a JSX literal -/

/-- The element built for one tag: `createElement(tag, props, ...children)`. -/
def createElement (tag : String) (props : List (String × String))
    (children : List VNode) : VNode :=
  VNode.element tag props children

mutual
/-- The children a JSX node contributes to its parent: an element contributes
the element built from it, a text contributes its cleaned text, if any. -/
def transform : JSXNode → List VNode
  | .element tag attrs children => [createElement tag attrs (transformChildren children)]
  | .text raw =>
    match cleanJSXElementLiteralChild raw with
    | some s => [VNode.text s]
    | none => []
/-- The children of an element, in source order. -/
def transformChildren : List JSXNode → List VNode
  | [] => []
  | c :: cs => transform c ++ transformChildren cs
end

/-- The value of a JSX element expression `<tag attrs>children</tag>`. -/
def jsx (tag : String) (attrs : List (String × String)) (children : List JSXNode) : VNode :=
  createElement tag attrs (transformChildren children)

/-! ## The component -/

/-- The children of the outer `div` of the JSX literal returned by
`LandingPage` (lines 6–17 of the source), raw text included. -/
def LandingPageChildren : List JSXNode :=
  [ .text "\n      ",
    .element "div" [("className", "max-w-2xl text-center text-white")]
      [ .text "\n        ",
        .element "h1" [("className", "text-5xl font-extrabold mb-6")]
          [ .text "Welcome to Our Website" ],
        .text "\n        ",
        .element "p" [("className", "text-xl mb-8")]
          [ .text "\n          Discover our amazing services and start your journey with us today.\n        " ],
        .text "\n        ",
        .element "a"
          [ ("href", "#get-started"),
            ("className", "inline-block bg-white text-blue-600 font-semibold px-6 py-3 rounded-full shadow-lg hover:bg-gray-100 transition") ]
          [ .text "\n          Get Started\n        " ],
        .text "\n      " ],
    .text "\n    " ]

/-- The component: `const LandingPage = () => { return ( <div …>…</div> ); }`.
The parameter list is empty, so whatever arguments a caller passes are not
bound to anything; the body is one `return` of the JSX literal. -/
def LandingPage (_args : List JSVal) : Except JSError VNode :=
  Except.ok
    (jsx "div"
      [("className", "min-h-screen bg-gradient-to-r from-blue-500 to-indigo-600 flex items-center justify-center px-6")]
      LandingPageChildren)

/-- The variables outside the function body that a call could read or write. -/
structure Store where
  vars : List (String × JSVal)

/-- One call of the component in a store.  The body of `LandingPage` assigns to
nothing and reads no variable, so the store comes back as it was found. -/
def callLandingPage (σ : Store) (args : List JSVal) : Except JSError VNode × Store :=
  (LandingPage args, σ)

/-! ## Calls in a store

To speak of what earlier calls may have left behind, the function is also
given as a piece of program text, `LandingPageFn`, and run by an evaluator of
function bodies in which a body can read the variables around it and assign to
them.  Whether a call depends on the store, or changes it, is then decided by
what the body says. -/

/-- An expression of a function body: a JSX element literal, a variable, or a
literal value. -/
inductive Expr where
  | jsxElement (tag : String) (attrs : List (String × String)) (children : List JSXNode)
  | ident (name : String)
  | literal (v : JSVal)

/-- A statement of a function body: `return e;`, `name = e;` or `e;`. -/
inductive Stmt where
  | ret (e : Expr)
  | assign (name : String) (e : Expr)
  | expr (e : Expr)

/-- An arrow function `(params) => { body }`. -/
structure ArrowFunction where
  params : List String
  body : List Stmt

/-- Give a bound variable a new value; the bindings are unchanged when the name
is not bound. -/
def setVar (name : String) (v : JSVal) : List (String × JSVal) → List (String × JSVal)
  | [] => []
  | (n, w) :: rest =>
    if n = name then (n, v) :: rest else (n, w) :: setVar name v rest

/-- The parameters bound to the arguments, in order: a parameter without an
argument is `undefined`, an argument without a parameter is dropped. -/
def bindParams : List String → List JSVal → List (String × JSVal)
  | [], _ => []
  | p :: ps, [] => (p, JSVal.undefined) :: bindParams ps []
  | p :: ps, a :: rest => (p, a) :: bindParams ps rest

/-- The value of an expression: a JSX literal evaluates to its element tree, a
variable to its value among the parameters or else in the store (a name bound
in neither is a reference error), a literal to itself. -/
def evalExpr (locals : List (String × JSVal)) (σ : Store) : Expr → Except JSError JSVal
  | .jsxElement tag attrs children => Except.ok (JSVal.tree (jsx tag attrs children))
  | .ident name =>
    match locals.lookup name with
    | some v => Except.ok v
    | none =>
      match σ.vars.lookup name with
      | some v => Except.ok v
      | none => Except.error (JSError.thrown (name ++ " is not defined"))
  | .literal v => Except.ok v

/-- Run the statements of a body in order.  `return e` ends the call with the
value of `e`; an assignment writes to the parameter of that name or else to
the store variable of that name; an error ends the call; a body that runs out
returns `undefined`. -/
def execBody : List Stmt → List (String × JSVal) → Store → Except JSError JSVal × Store
  | [], _, σ => (Except.ok JSVal.undefined, σ)
  | .ret e :: _, locals, σ => (evalExpr locals σ e, σ)
  | .expr e :: rest, locals, σ =>
    match evalExpr locals σ e with
    | Except.ok _ => execBody rest locals σ
    | Except.error err => (Except.error err, σ)
  | .assign name e :: rest, locals, σ =>
    match evalExpr locals σ e with
    | Except.error err => (Except.error err, σ)
    | Except.ok v =>
      if (locals.lookup name).isSome then execBody rest (setVar name v locals) σ
      else if (σ.vars.lookup name).isSome then execBody rest locals (Store.mk (setVar name v σ.vars))
      else (Except.error (JSError.thrown (name ++ " is not defined")), σ)

/-- One call of a function in a store: its result and the store it leaves. -/
def ArrowFunction.call (f : ArrowFunction) (σ : Store) (args : List JSVal) :
    Except JSError JSVal × Store :=
  execBody f.body (bindParams f.params args) σ

/-- A sequence of calls of a function, one after the other, each in the store
the previous one left; returns the store after the last call. -/
def runCalls (f : ArrowFunction) : Store → List (List JSVal) → Store
  | σ, [] => σ
  | σ, args :: rest => runCalls f (f.call σ args).2 rest

/-- The text of the component, `() => { return ( <div …>…</div> ); }`: no
parameters, and a body of one `return` of the JSX literal. -/
def LandingPageFn : ArrowFunction :=
  ArrowFunction.mk []
    [ Stmt.ret (Expr.jsxElement "div"
        [("className", "min-h-screen bg-gradient-to-r from-blue-500 to-indigo-600 flex items-center justify-center px-6")]
        LandingPageChildren) ]

/-- A function that returns a variable of the store, `() => { return title; }`,
for comparison. -/
def readsTitleFn : ArrowFunction :=
  ArrowFunction.mk [] [Stmt.ret (Expr.ident "title")]

/-- A function that assigns to a variable of the store,
`() => { seen = true; }`, for comparison. -/
def marksSeenFn : ArrowFunction :=
  ArrowFunction.mk [] [Stmt.assign "seen" (Expr.literal (JSVal.bool true))]

/-! ## Queries on element trees -/

mutual
/-- All nodes of a tree in document (pre-order) order, the root first. -/
def VNode.nodes : VNode → List VNode
  | .element tag props children => VNode.element tag props children :: nodesOfList children
  | .text value => [VNode.text value]
/-- All nodes of a list of sibling trees in document order. -/
def nodesOfList : List VNode → List VNode
  | [] => []
  | c :: cs => c.nodes ++ nodesOfList cs
end

mutual
/-- The concatenation of the text nodes below a node, in document order. -/
def VNode.textContent : VNode → String
  | .element _ _ children => textContentOfList children
  | .text value => value
/-- The concatenated text of a list of sibling trees. -/
def textContentOfList : List VNode → String
  | [] => ""
  | c :: cs => c.textContent ++ textContentOfList cs
end

/-- The tag of an element, `none` for a text node. -/
def VNode.tagName : VNode → Option String
  | .element tag _ _ => some tag
  | .text _ => none

/-- The node is an element. -/
def VNode.isElement : VNode → Bool
  | .element _ _ _ => true
  | .text _ => false

/-- The node is a text node. -/
def VNode.isText : VNode → Bool
  | .element _ _ _ => false
  | .text _ => true

/-- The children of a node (a text node has none). -/
def VNode.children : VNode → List VNode
  | .element _ _ children => children
  | .text _ => []

/-- The value of an attribute of an element. -/
def VNode.getAttribute (name : String) : VNode → Option String
  | .element _ props _ => props.lookup name
  | .text _ => none

/-- The proper descendants of a node in document order. -/
def VNode.descendants (t : VNode) : List VNode :=
  nodesOfList t.children

/-- The elements of a tree with a given tag, in document order. -/
def VNode.byTag (tag : String) (t : VNode) : List VNode :=
  t.nodes.filter (fun n => n.tagName == some tag)

/-- The tags of the elements of a tree, in document order. -/
def VNode.elementTags (t : VNode) : List String :=
  t.nodes.filterMap VNode.tagName

/-- Split a class attribute at whitespace; `cur` is the current token, reversed. -/
def classTokensAux : List Char → List Char → List String
  | [], cur => if cur.isEmpty then [] else [String.mk cur.reverse]
  | c :: rest, cur =>
    if c.isWhitespace then
      (if cur.isEmpty then [] else [String.mk cur.reverse]) ++ classTokensAux rest []
    else classTokensAux rest (c :: cur)

/-- The class list of an element: the whitespace-separated tokens of its
`className` (empty when it has none). -/
def VNode.classList (t : VNode) : List String :=
  match t.getAttribute "className" with
  | some c => classTokensAux c.data []
  | none => []

/-- The element tree the JSX literal of `LandingPage` evaluates to, written
out: what is left once the text children are cleaned. -/
def landingPageTree : VNode :=
  .element "div"
    [("className", "min-h-screen bg-gradient-to-r from-blue-500 to-indigo-600 flex items-center justify-center px-6")]
    [ .element "div" [("className", "max-w-2xl text-center text-white")]
        [ .element "h1" [("className", "text-5xl font-extrabold mb-6")]
            [ .text "Welcome to Our Website" ],
          .element "p" [("className", "text-xl mb-8")]
            [ .text "Discover our amazing services and start your journey with us today." ],
          .element "a"
            [ ("href", "#get-started"),
              ("className", "inline-block bg-white text-blue-600 font-semibold px-6 py-3 rounded-full shadow-lg hover:bg-gray-100 transition") ]
            [ .text "Get Started" ] ] ]

/-- Every link target in the tree is an in-page fragment: an element with an
`href` has one that starts with `#`. -/
def VNode.linksInPage (t : VNode) : Bool :=
  t.nodes.all (fun n =>
    match n.getAttribute "href" with
    | some target => target.data.head? == some '#'
    | none => true)

/-- Every element of the tree carries a non-empty `className`. -/
def VNode.allClassed (t : VNode) : Bool :=
  t.nodes.all (fun n =>
    match n with
    | .element _ props _ =>
      (match props.lookup "className" with
       | some c => !c.data.isEmpty
       | none => false)
    | .text _ => true)

/-! ## Evaluation lemmas -/

/-- Raw text that is only line breaks and indentation yields no child. -/
theorem clean_indentation :
    cleanJSXElementLiteralChild "\n        " = none := by decide

/-- Text on one line is kept as it is. -/
theorem clean_heading :
    cleanJSXElementLiteralChild "Welcome to Our Website" = some "Welcome to Our Website" := by
  decide

/-- Text on a line of its own loses the line breaks and the indentation around it. -/
theorem clean_link_label :
    cleanJSXElementLiteralChild "\n          Get Started\n        " = some "Get Started" := by
  decide

/-- The call returns the written-out tree, whatever the arguments. -/
theorem LandingPage_eq_tree (args : List JSVal) :
    LandingPage args = Except.ok landingPageTree := by
  rfl

/-- Running the text of the component is the function `LandingPage`: the call
returns what `LandingPage` returns and leaves the store it was given. -/
theorem LandingPageFn_call (σ : Store) (args : List JSVal) :
    LandingPageFn.call σ args = ((LandingPage args).map JSVal.tree, σ) := by
  rfl

/-- Calls of the component leave the store as they found it. -/
theorem runCalls_LandingPageFn (σ : Store) (calls : List (List JSVal)) :
    runCalls LandingPageFn σ calls = σ := by
  induction calls generalizing σ with
  | nil => rfl
  | cons args rest ih =>
    show runCalls LandingPageFn (LandingPageFn.call σ args).2 rest = σ
    rw [LandingPageFn_call]
    exact ih σ

/-- The result of a call can depend on the store: a body that returns a store
variable returns different values in different stores. -/
theorem readsTitleFn_depends_on_store :
    (readsTitleFn.call (Store.mk [("title", JSVal.str "a")]) []).1 ≠
      (readsTitleFn.call (Store.mk [("title", JSVal.str "b")]) []).1 := by
  simp [ArrowFunction.call, readsTitleFn, execBody, evalExpr, bindParams, List.lookup]

/-- A call can change the store: after a call of a body that assigns to a
store variable the store is another one. -/
theorem marksSeenFn_changes_store :
    runCalls marksSeenFn (Store.mk [("seen", JSVal.bool false)]) [[]] ≠
      Store.mk [("seen", JSVal.bool false)] := by
  simp [runCalls, ArrowFunction.call, marksSeenFn, execBody, evalExpr, bindParams,
    List.lookup, setVar]

/-! ## The properties -/

/-- C1: the tree returned by `LandingPage()` holds exactly one `h1` element among
all of its nodes, and the text content of that heading is exactly
"Welcome to Our Website". -/
theorem LandingPage_one_heading (args : List JSVal) :
    ∃ t h, LandingPage args = Except.ok t ∧ t.byTag "h1" = [h] ∧
      (t.elementTags.count "h1" = 1) ∧
      h.textContent = "Welcome to Our Website" := by
  refine ⟨landingPageTree, _, LandingPage_eq_tree args, rfl, ?_, ?_⟩
  · decide
  · decide

/-- C2: the tree returned by `LandingPage()` holds exactly one `a` element among
all of its nodes; its `href` is exactly "#get-started", which starts with `#`,
no element of the tree has an `href` that does not start with `#`, and the text
content of the link is exactly "Get Started". -/
theorem LandingPage_one_link (args : List JSVal) :
    ∃ t a, LandingPage args = Except.ok t ∧ t.byTag "a" = [a] ∧
      (t.elementTags.count "a" = 1) ∧
      a.getAttribute "href" = some "#get-started" ∧
      a.textContent = "Get Started" ∧
      (∀ n ∈ t.nodes, ∀ target, n.getAttribute "href" = some target →
        target.data.head? = some '#') := by
  refine ⟨landingPageTree, _, LandingPage_eq_tree args, rfl, ?_, ?_, ?_, ?_⟩
  · decide
  · decide
  · decide
  · intro n hn target htarget
    have hall : landingPageTree.linksInPage = true := by decide
    have hn2 := (List.all_eq_true.mp hall) n hn
    rw [htarget] at hn2
    simpa using hn2

/-- C3: the tree returned by `LandingPage()` holds exactly one `p` element among
all of its nodes; its text content is the fixed sentence, and that text neither
starts nor ends with a whitespace character. -/
theorem LandingPage_one_paragraph (args : List JSVal) :
    ∃ t p, LandingPage args = Except.ok t ∧ t.byTag "p" = [p] ∧
      (t.elementTags.count "p" = 1) ∧
      p.textContent =
        "Discover our amazing services and start your journey with us today." ∧
      p.textContent.data.head?.map Char.isWhitespace = some false ∧
      p.textContent.data.getLast?.map Char.isWhitespace = some false := by
  refine ⟨landingPageTree, _, LandingPage_eq_tree args, rfl, ?_, ?_, ?_, ?_⟩
  · decide
  · decide
  · decide
  · decide

/-- C4: rendering is idempotent and deterministic: run as program text in a
store, a call `LandingPage()` returns the same element tree whatever the store
and however many calls (with whatever arguments) came before, so any two
invocations return equal trees; the tree is the one `LandingPage` returns, and
the calls leave the store as they found it. -/
theorem LandingPage_idempotent (σ₁ σ₂ : Store) (before₁ before₂ : List (List JSVal)) :
    (LandingPageFn.call (runCalls LandingPageFn σ₁ before₁) []).1 =
        (LandingPageFn.call (runCalls LandingPageFn σ₂ before₂) []).1 ∧
      (∃ t, (LandingPageFn.call (runCalls LandingPageFn σ₁ before₁) []).1 =
          Except.ok (JSVal.tree t) ∧ LandingPage [] = Except.ok t) ∧
      (LandingPageFn.call (runCalls LandingPageFn σ₁ before₁) []).2 = σ₁ := by
  rw [runCalls_LandingPageFn σ₁ before₁, runCalls_LandingPageFn σ₂ before₂]
  rw [LandingPageFn_call σ₁ [], LandingPageFn_call σ₂ []]
  refine ⟨rfl, ⟨landingPageTree, ?_, LandingPage_eq_tree []⟩, rfl⟩
  show (LandingPage []).map JSVal.tree = Except.ok (JSVal.tree landingPageTree)
  rw [LandingPage_eq_tree []]
  rfl

/-- C5: the render call never fails: for every argument list `LandingPage`
returns an element tree (a normal completion whose value is an element), and it
returns no error. -/
theorem LandingPage_never_fails (args : List JSVal) :
    (∃ t, LandingPage args = Except.ok t ∧ t.isElement = true) ∧
      ∀ e, LandingPage args ≠ Except.error e := by
  refine ⟨⟨landingPageTree, LandingPage_eq_tree args, rfl⟩, ?_⟩
  intro e h
  rw [LandingPage_eq_tree] at h
  cases h

/-- C6: the component has no inputs: for any two argument lists the host
framework might pass, the two calls return the same tree. -/
theorem LandingPage_ignores_arguments (p₁ p₂ : List JSVal) :
    LandingPage p₁ = LandingPage p₂ ∧
      ∀ σ : Store, (callLandingPage σ p₁).1 = (callLandingPage σ p₂).1 := by
  refine ⟨?_, ?_⟩
  · rw [LandingPage_eq_tree p₁, LandingPage_eq_tree p₂]
  · intro σ
    rfl

/-- C7: the root of the tree returned by `LandingPage()` is a `div` whose class
list holds `min-h-screen`, `bg-gradient-to-r`, `from-blue-500`, `to-indigo-600`,
`flex`, `items-center` and `justify-center`; the tree has a heading, a
paragraph and a link, and each of them is a proper descendant of the root. -/
theorem LandingPage_root_container (args : List JSVal) :
    ∃ t, LandingPage args = Except.ok t ∧ t.tagName = some "div" ∧
      (∀ c ∈ ["min-h-screen", "bg-gradient-to-r", "from-blue-500", "to-indigo-600",
          "flex", "items-center", "justify-center"], c ∈ t.classList) ∧
      (∀ tag ∈ ["h1", "p", "a"], t.byTag tag ≠ [] ∧
        ∀ e ∈ t.byTag tag, e ∈ t.descendants) := by
  refine ⟨landingPageTree, LandingPage_eq_tree args, rfl, ?_, ?_⟩
  · decide
  · intro tag htag
    simp only [List.mem_cons, List.mem_singleton, List.not_mem_nil, or_false] at htag
    have hh : landingPageTree.byTag "h1" =
        [.element "h1" [("className", "text-5xl font-extrabold mb-6")]
          [.text "Welcome to Our Website"]] := rfl
    have hp : landingPageTree.byTag "p" =
        [.element "p" [("className", "text-xl mb-8")]
          [.text "Discover our amazing services and start your journey with us today."]] := rfl
    have ha : landingPageTree.byTag "a" =
        [.element "a"
          [ ("href", "#get-started"),
            ("className", "inline-block bg-white text-blue-600 font-semibold px-6 py-3 rounded-full shadow-lg hover:bg-gray-100 transition") ]
          [.text "Get Started"]] := rfl
    rcases htag with rfl | rfl | rfl
    · rw [hh]
      refine ⟨by simp, ?_⟩
      intro e he
      rw [List.mem_singleton] at he
      subst he
      simp [VNode.descendants, VNode.children, landingPageTree, nodesOfList, VNode.nodes]
    · rw [hp]
      refine ⟨by simp, ?_⟩
      intro e he
      rw [List.mem_singleton] at he
      subst he
      simp [VNode.descendants, VNode.children, landingPageTree, nodesOfList, VNode.nodes]
    · rw [ha]
      refine ⟨by simp, ?_⟩
      intro e he
      rw [List.mem_singleton] at he
      subst he
      simp [VNode.descendants, VNode.children, landingPageTree, nodesOfList, VNode.nodes]

/-- C8, as stated, fails: the tree returned by `LandingPage()` is not made of a
single container, one heading, one paragraph and one link.  Its elements are
not `div`, `h1`, `p`, `a` in any order, and the number of its `div` elements is
not one: the root `div` holds a second, inner `div` around the heading, the
paragraph and the link. -/
theorem LandingPage_not_single_container :
    (¬ ∃ t, LandingPage [] = Except.ok t ∧
        List.Perm t.elementTags ["div", "h1", "p", "a"]) ∧
      (¬ ∃ t, LandingPage [] = Except.ok t ∧ t.elementTags.count "div" = 1) := by
  constructor
  · rintro ⟨t, ht, hperm⟩
    rw [LandingPage_eq_tree] at ht
    have heq := Except.ok.inj ht
    subst heq
    have hlen := hperm.length_eq
    revert hlen
    decide
  · rintro ⟨t, ht, hcount⟩
    rw [LandingPage_eq_tree] at ht
    have heq := Except.ok.inj ht
    subst heq
    revert hcount
    decide

/-- C8, amended: the tree returned by `LandingPage()` is the fixed tree of
container, heading, paragraph and link elements: its elements in document order
are `div`, `div`, `h1`, `p`, `a`, so every element is a container, a heading, a
paragraph or a link, there are two containers (the root and the inner `div`),
one heading, one paragraph and one link, and the heading comes before the
paragraph and the paragraph before the link. -/
theorem LandingPage_fixed_tree (args : List JSVal) :
    ∃ t, LandingPage args = Except.ok t ∧ t = landingPageTree ∧
      t.elementTags = ["div", "div", "h1", "p", "a"] ∧
      (∀ tag ∈ t.elementTags, tag ∈ ["div", "h1", "p", "a"]) ∧
      t.elementTags.count "div" = 2 ∧
      t.elementTags.count "h1" = 1 ∧ t.elementTags.count "p" = 1 ∧
      t.elementTags.count "a" = 1 ∧
      t.elementTags.indexOf "h1" < t.elementTags.indexOf "p" ∧
      t.elementTags.indexOf "p" < t.elementTags.indexOf "a" := by
  refine ⟨landingPageTree, LandingPage_eq_tree args, rfl, ?_, ?_, ?_, ?_, ?_, ?_, ?_, ?_⟩
  all_goals decide

/-- C9: the root `div` of the tree returned by `LandingPage()` has exactly one
child, an inner `div` with class `max-w-2xl text-center text-white`; the inner
`div` has exactly three children, in order `h1`, `p`, `a`; each of these has
exactly one child, a text node; the tree has exactly five elements and three
text nodes; every element carries a non-empty `className`. -/
theorem LandingPage_structure (args : List JSVal) :
    ∃ t inner h p a,
      LandingPage args = Except.ok t ∧
      t.tagName = some "div" ∧ t.children = [inner] ∧
      inner.tagName = some "div" ∧
      inner.getAttribute "className" = some "max-w-2xl text-center text-white" ∧
      inner.children = [h, p, a] ∧
      h.tagName = some "h1" ∧ p.tagName = some "p" ∧ a.tagName = some "a" ∧
      (∀ e ∈ [h, p, a], ∃ s, e.children = [VNode.text s]) ∧
      (t.nodes.filter VNode.isElement).length = 5 ∧
      (t.nodes.filter VNode.isText).length = 3 ∧
      (∀ e ∈ t.nodes, e.isElement = true →
        ∃ c, e.getAttribute "className" = some c ∧ c ≠ "") := by
  refine ⟨landingPageTree, _, _, _, _, LandingPage_eq_tree args, rfl, rfl, rfl, rfl, rfl,
    rfl, rfl, rfl, ?_, ?_, ?_, ?_⟩
  · intro e he
    simp only [List.mem_cons, List.mem_singleton, List.not_mem_nil, or_false] at he
    rcases he with rfl | rfl | rfl
    · exact ⟨_, rfl⟩
    · exact ⟨_, rfl⟩
    · exact ⟨_, rfl⟩
  · decide
  · decide
  · intro e he helem
    have hall : landingPageTree.allClassed = true := by decide
    have he2 := (List.all_eq_true.mp hall) e he
    cases e with
    | text v => simp [VNode.isElement] at helem
    | element tag props children =>
      simp only [VNode.getAttribute]
      cases hl : props.lookup "className" with
      | none => simp [hl] at he2
      | some c =>
        refine ⟨c, rfl, ?_⟩
        intro hc
        subst hc
        simp [hl] at he2

end LandingPageJsx
